import Mathlib

/-!
Shallow embedding of the dispatch engine of `bot.py` (tele-forwarder-bot):
the channel registry, the broadcast algorithm (`broadcast_copy`), and the
durable outbox sweep (`outbox_loop`, one cycle).

Modelling conventions:
* Wall-clock time is `Rat`; `asyncio.sleep d` advances an ideal clock by
  exactly `d`; `time.time()` / `datetime.now()` read that clock.
* The transport (`bot.copy_message`) is an oracle
  `tr : Nat → Nat → SendResult` giving the outcome of attempt number `a`
  (0-based) to the channel at position `i` of the loaded snapshot.
  `SendResult.forbidden` models a raised `telegram.error.Forbidden`
  (`type(e).__name__ == 'Forbidden'`), `SendResult.otherError` any other
  raised exception, `SendResult.ok` a successful copy.
* `random.uniform(0, JITTER)` is an oracle `jitter : Nat → Rat` indexed by
  the channel position.
* The three JSON stores are fields of `BotState` (`channelsFile`,
  `postsFile`) and, for the scheduler, an explicit `List OutboxEntry`.
  All file operations in the source run under one asyncio lock and the
  modelled operations are the serialized read-modify-write they perform.
-/

namespace SignalBot

abbrev Time := Rat

abbrev Channel := String

/-- Outcome of one transport send attempt (`bot.copy_message` call):
success, a raised `Forbidden` error, or any other raised exception. -/
inductive SendResult
  | ok
  | forbidden
  | otherError
deriving DecidableEq, Repr

/-- The per-channel outcome strings appended to `results` in
`broadcast_copy`: exactly the strings given to
`results.append({'channel': .., 'status': ..})` at bot.py:262, 282, 289. -/
inductive SendStatus
  | ok
  | forbidden
  | failed
deriving DecidableEq, Repr

/-- One `{'channel': .., 'status': ..}` record of a broadcast `results`
list (bot.py:262, 282, 289). -/
structure ResultRec where
  channel : Channel
  status : SendStatus
deriving DecidableEq, Repr

/-- The dict given to `record_post` at bot.py:297: one ledger entry of
`posts.json` (the Posts/Ledger collection). -/
structure LedgerEntry where
  fromChatId : Int
  messageId : Int
  results : List ResultRec
  originAdmin : Int
  time : Time
deriving DecidableEq, Repr

/-- The configuration values read at bot.py:85-94. -/
structure Config where
  SEND_RETRY_COUNT : Nat
  SEND_RETRY_DELAY : Time
  INTER_SEND_DELAY : Time
  JITTER : Time
  PER_CHANNEL_COOLDOWN : Time
  REMOVE_ON_FORBIDDEN : Bool
  FORBIDDEN_THRESHOLD : Nat

/-- The mutable state the dispatch engine touches: `channels.json`,
`posts.json`, the in-memory dicts `last_sent_times` and
`forbidden_counts` (bot.py:97-98; `forbidden_counts.get(ch, 0)` semantics
is modelled by a total function defaulting to 0), and the ideal clock. -/
structure BotState where
  channelsFile : List Channel
  postsFile : List LedgerEntry
  lastSentTimes : Channel → Option Time
  forbiddenCounts : Channel → Nat
  clock : Time

/-- `write_log` (bot.py:190-197) is a documented no-op: "Logs have been
disabled". It discards its entry dict and touches no store, so it is the
identity on state (the discarded entry argument is elided). -/
def write_log (s : BotState) : BotState := s

/-- `asyncio.sleep d`: advance the ideal clock by `d`. -/
def sleep (d : Time) (s : BotState) : BotState :=
  { s with clock := s.clock + d }

/-- `remove_channel` (bot.py:212-220): remove the first occurrence of the
identifier from `channels.json` if present, returning whether a removal
happened (the trailing `write_log` is the no-op). -/
def remove_channel (ch : Channel) (s : BotState) : Bool × BotState :=
  if ch ∈ s.channelsFile then
    (true, write_log { s with channelsFile := s.channelsFile.erase ch })
  else
    (false, s)

/-- `record_post` (bot.py:227-231): append one entry to `posts.json`. -/
def record_post (meta : LedgerEntry) (s : BotState) : BotState :=
  { s with postsFile := s.postsFile ++ [meta] }

/-- One transport send attempt as it appears on the wire: the channel it
went to, the clock time at which `bot.copy_message` was called, and its
outcome. -/
structure AttemptRec where
  channel : Channel
  time : Time
  result : SendResult
deriving DecidableEq, Repr

/-- Output of the retry `while` loop for one channel. -/
structure LoopOut where
  state : BotState
  results : List ResultRec
  trace : List AttemptRec
  success : Bool
  attempt : Nat

/-- The retry `while attempt < SEND_RETRY_COUNT` loop of `broadcast_copy`
(bot.py:256-286) for the channel at snapshot position `i`. The `fuel`
argument is `SEND_RETRY_COUNT - attempt` (the loop is entered with
`attempt = 0` and `fuel = SEND_RETRY_COUNT`); `attempt` is the Python
`attempt` counter. On `Forbidden`, the counter is incremented and, when
auto-removal is on and the counter has reached the threshold, the channel
is removed, a `forbidden` result is appended and the loop breaks with
`success = False`; otherwise (below threshold, or any other error) the
loop sleeps `SEND_RETRY_DELAY` and retries. -/
def sendAttemptLoop (cfg : Config) (tr : Nat → Nat → SendResult) (i : Nat)
    (ch : Channel) :
    Nat → Nat → BotState → List ResultRec → List AttemptRec → LoopOut
  | 0, attempt, s, results, trace => ⟨s, results, trace, false, attempt⟩
  | Nat.succ fuel, attempt, s, results, trace =>
    let trace2 := trace ++ [⟨ch, s.clock, tr i attempt⟩]
    match tr i attempt with
    | SendResult.ok =>
      ⟨write_log s, results ++ [⟨ch, SendStatus.ok⟩], trace2, true, attempt⟩
    | SendResult.forbidden =>
      let attempt2 := attempt + 1
      let s2 := write_log s
      let cnt := s2.forbiddenCounts ch + 1
      let s3 := { s2 with
        forbiddenCounts := fun c => if c = ch then cnt else s2.forbiddenCounts c }
      if cfg.REMOVE_ON_FORBIDDEN = true ∧ cfg.FORBIDDEN_THRESHOLD ≤ cnt then
        let s4 := (remove_channel ch s3).2
        ⟨write_log s4, results ++ [⟨ch, SendStatus.forbidden⟩], trace2, false, attempt2⟩
      else
        sendAttemptLoop cfg tr i ch fuel attempt2
          (sleep cfg.SEND_RETRY_DELAY s3) results trace2
    | SendResult.otherError =>
      let attempt2 := attempt + 1
      sendAttemptLoop cfg tr i ch fuel attempt2
        (sleep cfg.SEND_RETRY_DELAY (write_log s)) results trace2

/-- Output threaded through the channel loop of `broadcast_copy`. -/
structure BCOut where
  state : BotState
  results : List ResultRec
  trace : List AttemptRec

/-- The per-channel body of the `for ch in channels` loop of
`broadcast_copy` (bot.py:244-296): the pre-send cooldown wait (`if
last_ts:` is Python truthiness, i.e. present and nonzero), the retry
loop, the post-loop `failed` append when the loop was exhausted without
success, the `last_sent_times[ch] = time.time()` record, and the
inter-send delay with jitter. -/
def channelStep (cfg : Config) (tr : Nat → Nat → SendResult)
    (jitter : Nat → Time) (i : Nat) (ch : Channel) (s : BotState)
    (results : List ResultRec) (trace : List AttemptRec) : BCOut :=
  let now := s.clock
  let s1 :=
    match s.lastSentTimes ch with
    | some t =>
      if t ≠ 0 ∧ now - t < cfg.PER_CHANNEL_COOLDOWN then
        sleep (cfg.PER_CHANNEL_COOLDOWN - (now - t)) s
      else s
    | none => s
  let o := sendAttemptLoop cfg tr i ch cfg.SEND_RETRY_COUNT 0 s1 results trace
  let results2 :=
    if o.success = false ∧ cfg.SEND_RETRY_COUNT ≤ o.attempt then
      o.results ++ [⟨ch, SendStatus.failed⟩]
    else o.results
  let s2 := o.state
  let s3 := { s2 with
    lastSentTimes := fun c => if c = ch then some s2.clock else s2.lastSentTimes c }
  let s4 := sleep (cfg.INTER_SEND_DELAY + jitter i) s3
  ⟨s4, results2, o.trace⟩

/-- The `for ch in channels` loop of `broadcast_copy`, iterating over the
snapshot loaded at the top of the call; `i` is the position of the head
of the remaining list in the snapshot. -/
def goChannels (cfg : Config) (tr : Nat → Nat → SendResult)
    (jitter : Nat → Time) :
    List Channel → Nat → BotState → List ResultRec → List AttemptRec → BCOut
  | [], _, s, results, trace => ⟨s, results, trace⟩
  | ch :: rest, i, s, results, trace =>
    let o := channelStep cfg tr jitter i ch s results trace
    goChannels cfg tr jitter rest (i + 1) o.state o.results o.trace

/-- What a `broadcast_copy` call produces: the final state, the Python
return value (`ret = none` models Python `None`; a `return results`
statement would be `some results`), and the trace of transport attempts. -/
structure BroadcastOut where
  state : BotState
  ret : Option (List ResultRec)
  trace : List AttemptRec

/-- `broadcast_copy` (bot.py:234-305). Loads the channel snapshot once; if
it is empty, calls the no-op `write_log` with the `no_channels` dict and
returns `None`; otherwise runs the sequential channel loop, appends one
entry to `posts.json` via `record_post`, and falls off the end (returning
`None`). -/
def broadcast_copy (cfg : Config) (tr : Nat → Nat → SendResult)
    (jitter : Nat → Time) (fromChatId messageId originAdmin : Int)
    (s : BotState) : BroadcastOut :=
  let channels := s.channelsFile
  if channels = [] then
    ⟨write_log s, none, []⟩
  else
    let o := goChannels cfg tr jitter channels 0 s [] []
    let s2 := record_post
      ⟨fromChatId, messageId, o.results, originAdmin, o.state.clock⟩ o.state
    ⟨s2, none, o.trace⟩

theorem sleep_postsFile (d : Time) (s : BotState) :
    (sleep d s).postsFile = s.postsFile := rfl

theorem sleep_forbiddenCounts (d : Time) (s : BotState) :
    (sleep d s).forbiddenCounts = s.forbiddenCounts := rfl

theorem remove_channel_postsFile (ch : Channel) (s : BotState) :
    ((remove_channel ch s).2).postsFile = s.postsFile := by
  unfold remove_channel
  split <;> rfl

/-- The retry loop never touches `posts.json`. -/
theorem sendAttemptLoop_postsFile (cfg : Config) (tr : Nat → Nat → SendResult)
    (i : Nat) (ch : Channel) :
    ∀ fuel attempt s results trace,
      (sendAttemptLoop cfg tr i ch fuel attempt s results trace).state.postsFile
        = s.postsFile := by
  intro fuel
  induction fuel with
  | zero => intro attempt s results trace; rfl
  | succ fuel ih =>
    intro attempt s results trace
    cases h : tr i attempt with
    | ok => simp [sendAttemptLoop, h, write_log]
    | forbidden =>
      by_cases hc : cfg.REMOVE_ON_FORBIDDEN = true ∧
          cfg.FORBIDDEN_THRESHOLD ≤ s.forbiddenCounts ch + 1
      · simp [sendAttemptLoop, h, hc, write_log, remove_channel_postsFile]
      · simp [sendAttemptLoop, h, hc, write_log, ih, sleep]
    | otherError => simp [sendAttemptLoop, h, write_log, ih, sleep]

/-- The per-channel loop body never touches `posts.json`. -/
theorem channelStep_postsFile (cfg : Config) (tr : Nat → Nat → SendResult)
    (jitter : Nat → Time) (i : Nat) (ch : Channel) (s : BotState)
    (results : List ResultRec) (trace : List AttemptRec) :
    (channelStep cfg tr jitter i ch s results trace).state.postsFile
      = s.postsFile := by
  unfold channelStep
  cases hl : s.lastSentTimes ch with
  | none => simp [hl, sendAttemptLoop_postsFile, sleep]
  | some t =>
    by_cases hc : t ≠ 0 ∧ s.clock - t < cfg.PER_CHANNEL_COOLDOWN
    · simp [hl, hc, sendAttemptLoop_postsFile, sleep]
    · simp [hl, hc, sendAttemptLoop_postsFile, sleep]

/-- The channel loop of `broadcast_copy` never touches `posts.json`. -/
theorem goChannels_postsFile (cfg : Config) (tr : Nat → Nat → SendResult)
    (jitter : Nat → Time) :
    ∀ chs i s results trace,
      (goChannels cfg tr jitter chs i s results trace).state.postsFile
        = s.postsFile := by
  intro chs
  induction chs with
  | nil => intro i s results trace; rfl
  | cons ch rest ih =>
    intro i s results trace
    simp only [goChannels]
    rw [ih, channelStep_postsFile]

/-- C1 (corrected): when the loaded channel list is non-empty, exactly one
LedgerEntry is appended to the Posts/Ledger collection per broadcast
invocation; when it is empty, nothing is appended — the `no_channels`
record goes only to the disabled (no-op) log, not to the ledger. -/
theorem C1_theorem (cfg : Config) (tr : Nat → Nat → SendResult)
    (jitter : Nat → Time) (f m o : Int) (s : BotState) :
    (s.channelsFile = [] →
      (broadcast_copy cfg tr jitter f m o s).state.postsFile = s.postsFile)
    ∧ (s.channelsFile ≠ [] →
      (broadcast_copy cfg tr jitter f m o s).state.postsFile.length
        = s.postsFile.length + 1) := by
  constructor
  · intro h
    simp [broadcast_copy, h, write_log]
  · intro h
    simp [broadcast_copy, h, record_post, goChannels_postsFile]

/-- Witness for C1 at concrete inputs: a one-channel broadcast appends
exactly one ledger entry. -/
theorem C1_witness :
    (broadcast_copy ⟨3, 2, 0, 0, 10, true, 3⟩ (fun _ _ => SendResult.ok)
        (fun _ => 0) 1 2 3
        ⟨["A"], [], fun _ => none, fun _ => 0, 0⟩).state.postsFile.length
      = (⟨["A"], [], fun _ => none, fun _ => 0, 0⟩ : BotState).postsFile.length
        + 1 :=
  (C1_theorem ⟨3, 2, 0, 0, 10, true, 3⟩ (fun _ _ => SendResult.ok)
    (fun _ => 0) 1 2 3 ⟨["A"], [], fun _ => none, fun _ => 0, 0⟩).2
    (by simp)

/-- Counterexample to C1 as stated: a broadcast invocation with an empty
channel list appends no LedgerEntry at all (the claim requires exactly
one, with status `no_channels`). -/
theorem C1_counterexample :
    ((broadcast_copy ⟨3, 2, 0, 0, 10, true, 3⟩ (fun _ _ => SendResult.ok)
        (fun _ => 0) 1 2 3
        ⟨[], [], fun _ => none, fun _ => 0, 0⟩).state.postsFile = [])
    ∧ ¬ ((broadcast_copy ⟨3, 2, 0, 0, 10, true, 3⟩ (fun _ _ => SendResult.ok)
        (fun _ => 0) 1 2 3
        ⟨[], [], fun _ => none, fun _ => 0, 0⟩).state.postsFile.length = 1) := by
  constructor
  · rfl
  · norm_num [broadcast_copy, write_log]

/-- C2 evaluated at its failing input (`SEND_RETRY_COUNT = 3`,
`FORBIDDEN_THRESHOLD = 3`, auto-removal on, one registered channel,
transport raising `Forbidden` on every attempt, counter initially 0):
the recorded results list holds two entries for the single channel —
`forbidden` and then `failed` — because the post-loop
`attempt >= SEND_RETRY_COUNT` append also fires after the
threshold-branch `break` on the final attempt. -/
theorem C2_theorem :
    ((broadcast_copy ⟨3, 2, 0, 0, 10, true, 3⟩ (fun _ _ => SendResult.forbidden)
        (fun _ => 0) 1 2 3
        ⟨["A"], [], fun _ => none, fun _ => 0, 0⟩).state.postsFile.map
      (fun e => e.results))
      = [[⟨"A", SendStatus.forbidden⟩, ⟨"A", SendStatus.failed⟩]] := by
  norm_num [broadcast_copy, goChannels, channelStep, sendAttemptLoop, sleep,
    write_log, remove_channel, record_post]

/-- C6 (corrected): `broadcast_copy` always returns Python `None` — it
never returns the results list, and on an empty registry it returns
`None`, not `[]`. -/
theorem C6_theorem (cfg : Config) (tr : Nat → Nat → SendResult)
    (jitter : Nat → Time) (f m o : Int) (s : BotState) :
    (broadcast_copy cfg tr jitter f m o s).ret = none := by
  by_cases h : s.channelsFile = [] <;> simp [broadcast_copy, h]

/-- Counterexample to C6 as stated: with an empty registry the call
returns `None` (modelled `none`), not the empty list `[]`. -/
theorem C6_counterexample :
    ((broadcast_copy ⟨3, 2, 0, 0, 10, true, 3⟩ (fun _ _ => SendResult.ok)
        (fun _ => 0) 1 2 3
        ⟨[], [], fun _ => none, fun _ => 0, 0⟩).ret = none)
    ∧ ¬ ((broadcast_copy ⟨3, 2, 0, 0, 10, true, 3⟩ (fun _ _ => SendResult.ok)
        (fun _ => 0) 1 2 3
        ⟨[], [], fun _ => none, fun _ => 0, 0⟩).ret = some []) := by
  constructor
  · rfl
  · decide

/-- When the first attempt to a channel succeeds, the retry loop leaves
`forbidden_counts` untouched (the success branch does NOT clear it). -/
theorem sendAttemptLoop_ok_forbiddenCounts (cfg : Config)
    (tr : Nat → Nat → SendResult) (i : Nat) (ch : Channel)
    (h : tr i 0 = SendResult.ok) (fuel : Nat) (s : BotState)
    (results : List ResultRec) (trace : List AttemptRec) :
    (sendAttemptLoop cfg tr i ch fuel 0 s results trace).state.forbiddenCounts
      = s.forbiddenCounts := by
  cases fuel with
  | zero => rfl
  | succ fuel => simp [sendAttemptLoop, h, write_log]

/-- When the first attempt to the channel succeeds, the per-channel loop
body leaves `forbidden_counts` untouched. -/
theorem channelStep_ok_forbiddenCounts (cfg : Config)
    (tr : Nat → Nat → SendResult) (jitter : Nat → Time) (i : Nat)
    (ch : Channel) (s : BotState) (results : List ResultRec)
    (trace : List AttemptRec) (h : tr i 0 = SendResult.ok) :
    (channelStep cfg tr jitter i ch s results trace).state.forbiddenCounts
      = s.forbiddenCounts := by
  unfold channelStep
  cases hl : s.lastSentTimes ch with
  | none => simp [hl, sendAttemptLoop_ok_forbiddenCounts cfg tr i ch h, sleep]
  | some t =>
    by_cases hc : t ≠ 0 ∧ s.clock - t < cfg.PER_CHANNEL_COOLDOWN
    · simp [hl, hc, sendAttemptLoop_ok_forbiddenCounts cfg tr i ch h, sleep]
    · simp [hl, hc, sendAttemptLoop_ok_forbiddenCounts cfg tr i ch h, sleep]

/-- Under an all-first-attempt-success transport, the channel loop leaves
`forbidden_counts` untouched. -/
theorem goChannels_ok_forbiddenCounts (cfg : Config)
    (tr : Nat → Nat → SendResult) (jitter : Nat → Time)
    (h : ∀ i, tr i 0 = SendResult.ok) :
    ∀ chs i s results trace,
      (goChannels cfg tr jitter chs i s results trace).state.forbiddenCounts
        = s.forbiddenCounts := by
  intro chs
  induction chs with
  | nil => intro i s results trace; rfl
  | cons ch rest ih =>
    intro i s results trace
    simp only [goChannels]
    rw [ih, channelStep_ok_forbiddenCounts cfg tr jitter i ch s results trace (h i)]

/-- C3 (corrected): a successful send does NOT reset the channel's
FailureCounter — it leaves it unchanged (the success branch of the retry
loop never writes `forbidden_counts`). Consequently, when every counter
is zero before the broadcast (e.g. a fresh process) and every send
succeeds, every counter is still zero afterwards. -/
theorem C3_theorem (cfg : Config) (tr : Nat → Nat → SendResult)
    (jitter : Nat → Time) (f m o : Int) (s : BotState)
    (h : ∀ i, tr i 0 = SendResult.ok) :
    (∀ c, (broadcast_copy cfg tr jitter f m o s).state.forbiddenCounts c
      = s.forbiddenCounts c)
    ∧ ((∀ c, s.forbiddenCounts c = 0) →
      ∀ c, (broadcast_copy cfg tr jitter f m o s).state.forbiddenCounts c = 0) := by
  have hmain : ∀ c,
      (broadcast_copy cfg tr jitter f m o s).state.forbiddenCounts c
        = s.forbiddenCounts c := by
    intro c
    by_cases hch : s.channelsFile = []
    · simp [broadcast_copy, hch, write_log]
    · simp [broadcast_copy, hch, record_post,
        goChannels_ok_forbiddenCounts cfg tr jitter h]
  exact ⟨hmain, fun h0 c => (hmain c).trans (h0 c)⟩

/-- Witness for C3 at concrete inputs: all-success broadcast over a fresh
process leaves the counter of a registered channel at zero. -/
theorem C3_witness :
    (broadcast_copy ⟨3, 2, 0, 0, 10, true, 3⟩ (fun _ _ => SendResult.ok)
        (fun _ => 0) 1 2 3
        ⟨["A", "B"], [], fun _ => none, fun _ => 0, 0⟩).state.forbiddenCounts
      ("B") = 0 :=
  (C3_theorem ⟨3, 2, 0, 0, 10, true, 3⟩ (fun _ _ => SendResult.ok)
    (fun _ => 0) 1 2 3 ⟨["A", "B"], [], fun _ => none, fun _ => 0, 0⟩
    (fun _ => rfl)).2 (fun _ => rfl) ("B")

/-- Counterexample to C3 as stated: a channel with FailureCounter 2 whose
send succeeds keeps counter 2 after the broadcast — the counter is not
reset to zero by the successful send. -/
theorem C3_counterexample :
    ((broadcast_copy ⟨3, 2, 0, 0, 10, true, 3⟩ (fun _ _ => SendResult.ok)
        (fun _ => 0) 1 2 3
        ⟨["A"], [], fun _ => none, fun c => if c = "A" then 2 else 0,
          0⟩).state.postsFile.map (fun e => e.results)
      = [[⟨"A", SendStatus.ok⟩]])
    ∧ ((broadcast_copy ⟨3, 2, 0, 0, 10, true, 3⟩ (fun _ _ => SendResult.ok)
        (fun _ => 0) 1 2 3
        ⟨["A"], [], fun _ => none, fun c => if c = "A" then 2 else 0,
          0⟩).state.forbiddenCounts ("A") = 2) := by
  constructor
  · norm_num [broadcast_copy, goChannels, channelStep, sendAttemptLoop, sleep,
      write_log, remove_channel, record_post]
  · norm_num [broadcast_copy, goChannels, channelStep, sendAttemptLoop, sleep,
      write_log, remove_channel, record_post]

/-- Trace shape of the retry loop: it only appends to the trace, every
appended attempt goes to this channel, and when at least one retry is
allowed the first appended attempt is made at the loop-entry clock with
the transport outcome for the entry attempt number. -/
theorem sendAttemptLoop_trace_spec (cfg : Config) (tr : Nat → Nat → SendResult)
    (i : Nat) (ch : Channel) :
    ∀ fuel attempt s results trace,
      ∃ l, (sendAttemptLoop cfg tr i ch fuel attempt s results trace).trace
          = trace ++ l
        ∧ (∀ a ∈ l, a.channel = ch)
        ∧ (∀ f2, fuel = f2 + 1 →
            ∃ l2, l = ⟨ch, s.clock, tr i attempt⟩ :: l2) := by
  intro fuel
  induction fuel with
  | zero =>
    intro attempt s results trace
    exact ⟨[], by simp [sendAttemptLoop], by simp, fun f2 hf => by omega⟩
  | succ fuel ih =>
    intro attempt s results trace
    cases h : tr i attempt with
    | ok =>
      refine ⟨[⟨ch, s.clock, SendResult.ok⟩], ?_, ?_, ?_⟩
      · simp [sendAttemptLoop, h]
      · simp
      · intro f2 hf; exact ⟨[], rfl⟩
    | forbidden =>
      by_cases hc : cfg.REMOVE_ON_FORBIDDEN = true ∧
          cfg.FORBIDDEN_THRESHOLD ≤ s.forbiddenCounts ch + 1
      · refine ⟨[⟨ch, s.clock, SendResult.forbidden⟩], ?_, ?_, ?_⟩
        · simp [sendAttemptLoop, h, hc, write_log]
        · simp
        · intro f2 hf; exact ⟨[], rfl⟩
      · obtain ⟨l, hl, hch, _⟩ := ih (attempt + 1)
          (sleep cfg.SEND_RETRY_DELAY
            { s with forbiddenCounts :=
                fun c => if c = ch then s.forbiddenCounts ch + 1
                  else s.forbiddenCounts c })
          results (trace ++ [⟨ch, s.clock, SendResult.forbidden⟩])
        refine ⟨⟨ch, s.clock, SendResult.forbidden⟩ :: l, ?_, ?_, ?_⟩
        · simp only [sendAttemptLoop, h, write_log] at hl ⊢
          rw [if_neg hc]
          simpa using hl
        · intro a ha
          rcases List.mem_cons.mp ha with rfl | ha2
          · rfl
          · exact hch a ha2
        · intro f2 hf; exact ⟨l, rfl⟩
    | otherError =>
      obtain ⟨l, hl, hch, _⟩ := ih (attempt + 1)
        (sleep cfg.SEND_RETRY_DELAY (write_log s)) results
        (trace ++ [⟨ch, s.clock, SendResult.otherError⟩])
      refine ⟨⟨ch, s.clock, SendResult.otherError⟩ :: l, ?_, ?_, ?_⟩
      · simp only [sendAttemptLoop, h] at hl ⊢
        simpa using hl
      · intro a ha
        rcases List.mem_cons.mp ha with rfl | ha2
        · rfl
        · exact hch a ha2
      · intro f2 hf; exact ⟨l, rfl⟩

/-- Trace shape of one per-channel loop body: it only appends attempts to
this channel; with at least one retry allowed, the first attempt happens
no earlier than the loop-entry clock, and — when the channel has a
truthy recorded last-send time `tl ≤ now` — no earlier than
`tl + PER_CHANNEL_COOLDOWN` (the Rate Governor pre-send wait). -/
theorem channelStep_trace_spec (cfg : Config) (tr : Nat → Nat → SendResult)
    (jitter : Nat → Time) (i : Nat) (ch : Channel) (s : BotState)
    (results : List ResultRec) (trace : List AttemptRec) :
    ∃ l, (channelStep cfg tr jitter i ch s results trace).trace = trace ++ l
      ∧ (∀ a ∈ l, a.channel = ch)
      ∧ (∀ k, cfg.SEND_RETRY_COUNT = k + 1 →
          ∃ t0 l2, l = ⟨ch, t0, tr i 0⟩ :: l2
            ∧ s.clock ≤ t0
            ∧ ∀ tl, s.lastSentTimes ch = some tl → tl ≠ 0 → tl ≤ s.clock →
                tl + cfg.PER_CHANNEL_COOLDOWN ≤ t0) := by
  unfold channelStep
  cases hl : s.lastSentTimes ch with
  | none =>
    obtain ⟨l, h1, h2, h3⟩ :=
      sendAttemptLoop_trace_spec cfg tr i ch cfg.SEND_RETRY_COUNT 0 s results trace
    refine ⟨l, by simpa [hl] using h1, h2, ?_⟩
    intro k hk
    obtain ⟨l2, hl2⟩ := h3 k hk
    exact ⟨s.clock, l2, hl2, le_refl _, fun tl htl => Option.noConfusion htl⟩
  | some t =>
    by_cases hc : t ≠ 0 ∧ s.clock - t < cfg.PER_CHANNEL_COOLDOWN
    · obtain ⟨l, h1, h2, h3⟩ :=
        sendAttemptLoop_trace_spec cfg tr i ch cfg.SEND_RETRY_COUNT 0
          (sleep (cfg.PER_CHANNEL_COOLDOWN - (s.clock - t)) s) results trace
      refine ⟨l, by simpa [hl, hc] using h1, h2, ?_⟩
      intro k hk
      obtain ⟨l2, hl2⟩ := h3 k hk
      refine ⟨(sleep (cfg.PER_CHANNEL_COOLDOWN - (s.clock - t)) s).clock, l2,
        hl2, ?_, ?_⟩
      · simp only [sleep]
        linarith [hc.2]
      · intro tl htl _ _
        obtain rfl : t = tl := by injection htl
        simp only [sleep]
        linarith
    · obtain ⟨l, h1, h2, h3⟩ :=
        sendAttemptLoop_trace_spec cfg tr i ch cfg.SEND_RETRY_COUNT 0 s results trace
      refine ⟨l, by simpa [hl, hc] using h1, h2, ?_⟩
      intro k hk
      obtain ⟨l2, hl2⟩ := h3 k hk
      refine ⟨s.clock, l2, hl2, le_refl _, ?_⟩
      intro tl htl htl0 hle
      obtain rfl : t = tl := by injection htl
      have hge : ¬ s.clock - t < cfg.PER_CHANNEL_COOLDOWN :=
        fun hlt => hc ⟨htl0, hlt⟩
      linarith [not_lt.mp hge]

/-- With a single registered channel, the broadcast trace is the trace of
that channel's loop body. -/
theorem broadcast_single_trace (cfg : Config) (tr : Nat → Nat → SendResult)
    (jitter : Nat → Time) (f m o : Int) (s : BotState) (ch : Channel)
    (h : s.channelsFile = [ch]) :
    (broadcast_copy cfg tr jitter f m o s).trace
      = (channelStep cfg tr jitter 0 ch s [] []).trace := by
  simp [broadcast_copy, h, goChannels]

/-- When a `Forbidden` attempt pushes the counter to the threshold with
auto-removal on, the retry loop stops after exactly that one attempt. -/
theorem sendAttemptLoop_threshold_stop (cfg : Config)
    (tr : Nat → Nat → SendResult) (i : Nat) (ch : Channel) (attempt k : Nat)
    (s : BotState) (results : List ResultRec) (trace : List AttemptRec)
    (h : tr i attempt = SendResult.forbidden)
    (hrem : cfg.REMOVE_ON_FORBIDDEN = true)
    (hth : cfg.FORBIDDEN_THRESHOLD ≤ s.forbiddenCounts ch + 1) :
    (sendAttemptLoop cfg tr i ch (k + 1) attempt s results trace).trace
      = trace ++ [⟨ch, s.clock, SendResult.forbidden⟩] := by
  simp [sendAttemptLoop, h, write_log, hrem, hth]

/-- With at least one retry allowed, the loop makes at least one
attempt. -/
theorem sendAttemptLoop_len_ge (cfg : Config) (tr : Nat → Nat → SendResult)
    (i : Nat) (ch : Channel) (fuel attempt : Nat) (s : BotState)
    (results : List ResultRec) (trace : List AttemptRec) (k : Nat)
    (hf : fuel = k + 1) :
    trace.length + 1
      ≤ (sendAttemptLoop cfg tr i ch fuel attempt s results trace).trace.length := by
  obtain ⟨l, h1, _, h3⟩ :=
    sendAttemptLoop_trace_spec cfg tr i ch fuel attempt s results trace
  obtain ⟨l2, hl2⟩ := h3 k hf
  rw [h1, hl2]
  simp [List.length_append]

/-- A below-threshold `Forbidden` attempt is retried: with at least two
retries allowed, the loop makes at least two attempts. -/
theorem sendAttemptLoop_below_retry (cfg : Config)
    (tr : Nat → Nat → SendResult) (i : Nat) (ch : Channel) (fuel : Nat)
    (s : BotState) (results : List ResultRec) (trace : List AttemptRec)
    (hfuel : 1 ≤ fuel) (h : tr i 0 = SendResult.forbidden)
    (hno : ¬ (cfg.REMOVE_ON_FORBIDDEN = true ∧
      cfg.FORBIDDEN_THRESHOLD ≤ s.forbiddenCounts ch + 1)) :
    trace.length + 2
      ≤ (sendAttemptLoop cfg tr i ch (fuel + 1) 0 s results trace).trace.length := by
  simp only [sendAttemptLoop, h, write_log]
  rw [if_neg hno]
  obtain ⟨k, rfl⟩ : ∃ k, fuel = k + 1 := ⟨fuel - 1, by omega⟩
  have hlen := sendAttemptLoop_len_ge cfg tr i ch (k + 1) (0 + 1)
    (sleep cfg.SEND_RETRY_DELAY
      { s with forbiddenCounts :=
          fun c => if c = ch then s.forbiddenCounts ch + 1
            else s.forbiddenCounts c })
    results (trace ++ [⟨ch, s.clock, SendResult.forbidden⟩]) k rfl
  simp only [List.length_append, List.length_singleton] at hlen
  omega

/-- C4 (corrected): under auto-removal, a permanent rejection ends a
channel's attempts only when it pushes the FailureCounter to
`forbidden_threshold` (then the loop breaks with outcome `forbidden` and
exactly one attempt was made when it was the first); a rejection below
the threshold falls through to the `retry_delay` sleep and IS retried,
so a further attempt to the channel follows within the same broadcast
whenever retries remain. -/
theorem C4_theorem (cfg : Config) (tr : Nat → Nat → SendResult)
    (jitter : Nat → Time) (f m o : Int) (s : BotState) (ch : Channel)
    (hch : s.channelsFile = [ch]) (hrem : cfg.REMOVE_ON_FORBIDDEN = true)
    (h0 : tr 0 0 = SendResult.forbidden) :
    (cfg.FORBIDDEN_THRESHOLD ≤ s.forbiddenCounts ch + 1 →
      ∀ k, cfg.SEND_RETRY_COUNT = k + 1 →
        (broadcast_copy cfg tr jitter f m o s).trace.length = 1)
    ∧ (¬ cfg.FORBIDDEN_THRESHOLD ≤ s.forbiddenCounts ch + 1 →
      ∀ k, cfg.SEND_RETRY_COUNT = k + 2 →
        2 ≤ (broadcast_copy cfg tr jitter f m o s).trace.length) := by
  constructor
  · intro hth k hk
    rw [broadcast_single_trace cfg tr jitter f m o s ch hch]
    unfold channelStep
    cases hl : s.lastSentTimes ch with
    | none =>
      simp [hl, hk, sendAttemptLoop_threshold_stop cfg tr 0 ch 0 k s [] []
        h0 hrem hth]
    | some t =>
      by_cases hcnd : t ≠ 0 ∧ s.clock - t < cfg.PER_CHANNEL_COOLDOWN
      · simp [hl, hcnd, hk, sendAttemptLoop_threshold_stop cfg tr 0 ch 0 k
          (sleep (cfg.PER_CHANNEL_COOLDOWN - (s.clock - t)) s) [] [] h0 hrem hth]
      · simp [hl, hcnd, hk, sendAttemptLoop_threshold_stop cfg tr 0 ch 0 k s
          [] [] h0 hrem hth]
  · intro hth k hk
    have hno : ¬ (cfg.REMOVE_ON_FORBIDDEN = true ∧
        cfg.FORBIDDEN_THRESHOLD ≤ s.forbiddenCounts ch + 1) :=
      fun hand => hth hand.2
    rw [broadcast_single_trace cfg tr jitter f m o s ch hch]
    unfold channelStep
    cases hl : s.lastSentTimes ch with
    | none =>
      have hb := sendAttemptLoop_below_retry cfg tr 0 ch (k + 1) s [] []
        (by omega) h0 hno
      simp only [List.length_nil] at hb
      simp only [hl]
      rw [hk]
      exact hb
    | some t =>
      by_cases hcnd : t ≠ 0 ∧ s.clock - t < cfg.PER_CHANNEL_COOLDOWN
      · have hb := sendAttemptLoop_below_retry cfg tr 0 ch (k + 1)
          (sleep (cfg.PER_CHANNEL_COOLDOWN - (s.clock - t)) s) [] []
          (by omega) h0 hno
        simp only [List.length_nil] at hb
        simp only [hl]
        rw [if_pos hcnd, hk]
        exact hb
      · have hb := sendAttemptLoop_below_retry cfg tr 0 ch (k + 1) s [] []
          (by omega) h0 hno
        simp only [List.length_nil] at hb
        simp only [hl]
        rw [if_neg hcnd, hk]
        exact hb

/-- Witness for C4 at concrete inputs: with threshold 1 the first
`Forbidden` ends the channel after a single attempt; with threshold 3 the
first `Forbidden` is retried (at least two attempts). -/
theorem C4_witness :
    ((broadcast_copy ⟨3, 2, 0, 0, 10, true, 1⟩ (fun _ _ => SendResult.forbidden)
        (fun _ => 0) 1 2 3
        ⟨["A"], [], fun _ => none, fun _ => 0, 0⟩).trace.length = 1)
    ∧ (2 ≤ (broadcast_copy ⟨3, 2, 0, 0, 10, true, 3⟩
        (fun _ _ => SendResult.forbidden) (fun _ => 0) 1 2 3
        ⟨["A"], [], fun _ => none, fun _ => 0, 0⟩).trace.length) :=
  ⟨(C4_theorem ⟨3, 2, 0, 0, 10, true, 1⟩ (fun _ _ => SendResult.forbidden)
      (fun _ => 0) 1 2 3 ⟨["A"], [], fun _ => none, fun _ => 0, 0⟩ "A"
      rfl rfl rfl).1 (by norm_num) 2 rfl,
   (C4_theorem ⟨3, 2, 0, 0, 10, true, 3⟩ (fun _ _ => SendResult.forbidden)
      (fun _ => 0) 1 2 3 ⟨["A"], [], fun _ => none, fun _ => 0, 0⟩ "A"
      rfl rfl rfl).2 (by norm_num) 1 rfl⟩

/-- Counterexample to C4 as stated: the transport rejects the single
channel permanently (a raised `Forbidden`) at time 0, and a further send
attempt to the same channel follows at time 2 within the same broadcast
— the permanent rejection was retried. -/
theorem C4_counterexample :
    (broadcast_copy ⟨3, 2, 0, 0, 10, true, 3⟩
        (fun _ a => if a = 0 then SendResult.forbidden else SendResult.ok)
        (fun _ => 0) 1 2 3
        ⟨["A"], [], fun _ => none, fun _ => 0, 0⟩).trace
      = [⟨"A", 0, SendResult.forbidden⟩, ⟨"A", 2, SendResult.ok⟩] := by
  norm_num [broadcast_copy, goChannels, channelStep, sendAttemptLoop, sleep,
    write_log, remove_channel, record_post]

/-- C8 (corrected): the `per_channel_cooldown` guarantee holds for the
FIRST attempt of a broadcast to a channel: when the channel has a truthy
recorded last-send time `t ≤ now`, the first attempt of the next
broadcast to it happens at a time `≥ t + per_channel_cooldown`.
(Retry attempts inside one broadcast are spaced by `retry_delay` only,
which may be smaller than the cooldown — see the counterexample.) -/
theorem C8_theorem (cfg : Config) (tr : Nat → Nat → SendResult)
    (jitter : Nat → Time) (f m o : Int) (s : BotState) (ch : Channel)
    (t : Time) (k : Nat) (hch : s.channelsFile = [ch])
    (hlast : s.lastSentTimes ch = some t) (ht0 : t ≠ 0) (htle : t ≤ s.clock)
    (hretry : cfg.SEND_RETRY_COUNT = k + 1) :
    ∃ a l, (broadcast_copy cfg tr jitter f m o s).trace = a :: l
      ∧ a.channel = ch ∧ t + cfg.PER_CHANNEL_COOLDOWN ≤ a.time := by
  rw [broadcast_single_trace cfg tr jitter f m o s ch hch]
  obtain ⟨l, h1, _, h3⟩ := channelStep_trace_spec cfg tr jitter 0 ch s [] []
  obtain ⟨t0, l2, hl2, _, hcd⟩ := h3 k hretry
  refine ⟨⟨ch, t0, tr 0 0⟩, l2, ?_, rfl, hcd t hlast ht0 htle⟩
  rw [h1, hl2]
  rfl

/-- Witness for C8 at concrete inputs: last send to the channel recorded
at time 5, clock now 7, cooldown 10 — the broadcast's first attempt to
the channel happens at a time `≥ 15`. -/
theorem C8_witness :
    ∃ a l, (broadcast_copy ⟨3, 2, 0, 0, 10, true, 3⟩
        (fun _ _ => SendResult.ok) (fun _ => 0) 1 2 3
        ⟨["A"], [], fun c => if c = "A" then some 5 else none, fun _ => 0,
          7⟩).trace = a :: l
      ∧ a.channel = "A"
      ∧ (5 : Time) + (⟨3, 2, 0, 0, 10, true, 3⟩ : Config).PER_CHANNEL_COOLDOWN
          ≤ a.time :=
  C8_theorem ⟨3, 2, 0, 0, 10, true, 3⟩ (fun _ _ => SendResult.ok)
    (fun _ => 0) 1 2 3
    ⟨["A"], [], fun c => if c = "A" then some 5 else none, fun _ => 0, 7⟩
    "A" 5 2 rfl rfl (by norm_num) (by norm_num) rfl

/-- Counterexample to C8 as stated: within one broadcast, two consecutive
send attempts to the same channel are separated by `SEND_RETRY_DELAY = 2`
only, which is smaller than `per_channel_cooldown = 10` — the cooldown
does not cover retry attempts. -/
theorem C8_counterexample :
    ((broadcast_copy ⟨3, 2, 0, 0, 10, true, 3⟩
        (fun _ a => if a = 0 then SendResult.otherError else SendResult.ok)
        (fun _ => 0) 1 2 3
        ⟨["A"], [], fun _ => none, fun _ => 0, 0⟩).trace
      = [⟨"A", 0, SendResult.otherError⟩, ⟨"A", 2, SendResult.ok⟩])
    ∧ ¬ ((0 : Time) + (⟨3, 2, 0, 0, 10, true, 3⟩ : Config).PER_CHANNEL_COOLDOWN
          ≤ 2) := by
  constructor
  · norm_num [broadcast_copy, goChannels, channelStep, sendAttemptLoop, sleep,
      write_log, remove_channel, record_post]
  · norm_num

/-- `ChannelBlocks chs cs`: the channel sequence `cs` consists of one
non-empty contiguous block per channel of `chs`, in the order of `chs`,
and nothing else. -/
inductive ChannelBlocks : List Channel → List Channel → Prop
  | nil : ChannelBlocks [] []
  | cons (ch : Channel) (k : Nat) (rest t : List Channel) :
      ChannelBlocks rest t →
      ChannelBlocks (ch :: rest) (List.replicate (k + 1) ch ++ t)

/-- The channel loop attempts each channel of the iterated snapshot in
order, as one non-empty block of attempts per channel. -/
theorem goChannels_blocks (cfg : Config) (tr : Nat → Nat → SendResult)
    (jitter : Nat → Time) (k : Nat) (hk : cfg.SEND_RETRY_COUNT = k + 1) :
    ∀ chs i s results trace,
      ∃ l, (goChannels cfg tr jitter chs i s results trace).trace = trace ++ l
        ∧ ChannelBlocks chs (l.map (fun a => a.channel)) := by
  intro chs
  induction chs with
  | nil =>
    intro i s results trace
    exact ⟨[], by simp [goChannels], ChannelBlocks.nil⟩
  | cons ch rest ih =>
    intro i s results trace
    obtain ⟨l1, h1, hch1, h3⟩ :=
      channelStep_trace_spec cfg tr jitter i ch s results trace
    obtain ⟨t0, l2, hl2, _, _⟩ := h3 k hk
    obtain ⟨lr, hr, hbr⟩ := ih (i + 1)
      (channelStep cfg tr jitter i ch s results trace).state
      (channelStep cfg tr jitter i ch s results trace).results
      (channelStep cfg tr jitter i ch s results trace).trace
    refine ⟨l1 ++ lr, ?_, ?_⟩
    · simp only [goChannels]
      rw [hr, h1, List.append_assoc]
    · rw [List.map_append]
      have hall : ∀ b ∈ l1.map (fun a => a.channel), b = ch := by
        intro b hb
        obtain ⟨a, ha, rfl⟩ := List.mem_map.mp hb
        exact hch1 a ha
      have hlen : (l1.map (fun a => a.channel)).length = l2.length + 1 := by
        simp [hl2]
      have hmap : l1.map (fun a => a.channel)
          = List.replicate (l2.length + 1) ch := by
        rw [List.eq_replicate_length.mpr hall, hlen]
      rw [hmap]
      exact ChannelBlocks.cons ch l2.length rest _ hbr

/-- C10 (confirmed): the channels a broadcast attempts are exactly the
snapshot of `channels.json` loaded at the start of the call, each
attempted as one non-empty block of sends, in snapshot (insertion)
order — for EVERY transport behaviour, hence in particular under any
mid-call registry removals (including the broadcast's own auto-removal,
which mutates only the persisted registry, never the iterated
snapshot). -/
theorem C10_theorem (cfg : Config) (tr : Nat → Nat → SendResult)
    (jitter : Nat → Time) (f m o : Int) (s : BotState) (k : Nat)
    (hk : cfg.SEND_RETRY_COUNT = k + 1) :
    ChannelBlocks s.channelsFile
      ((broadcast_copy cfg tr jitter f m o s).trace.map (fun a => a.channel)) := by
  by_cases h : s.channelsFile = []
  · have htr : (broadcast_copy cfg tr jitter f m o s).trace = [] := by
      simp [broadcast_copy, h]
    rw [htr, h]
    exact ChannelBlocks.nil
  · obtain ⟨l, hl, hb⟩ :=
      goChannels_blocks cfg tr jitter k hk s.channelsFile 0 s [] []
    have htr : (broadcast_copy cfg tr jitter f m o s).trace
        = (goChannels cfg tr jitter s.channelsFile 0 s [] []).trace := by
      simp [broadcast_copy, h]
    rw [htr, hl]
    simpa using hb

/-- Witness for C10 at concrete inputs: a two-channel registry under an
all-success transport is attempted as the blocks `A`, `B`. -/
theorem C10_witness :
    ChannelBlocks (["A", "B"])
      ((broadcast_copy ⟨3, 2, 0, 0, 10, true, 3⟩ (fun _ _ => SendResult.ok)
        (fun _ => 0) 1 2 3
        ⟨["A", "B"], [], fun _ => none, fun _ => 0, 0⟩).trace.map
        (fun a => a.channel)) :=
  C10_theorem ⟨3, 2, 0, 0, 10, true, 3⟩ (fun _ _ => SendResult.ok)
    (fun _ => 0) 1 2 3 ⟨["A", "B"], [], fun _ => none, fun _ => 0, 0⟩ 2 rfl

/-- The status strings an `outbox.json` entry can carry: `pending` is set
by `handle_schedule` (bot.py:703), the others by the sweep
(bot.py:761, 773, 777, 797, 802, 806). -/
inductive OStatus
  | pending
  | sending
  | sent
  | error
  | unknown_type
deriving DecidableEq, Repr

/-- One `outbox.json` entry. `sendAt = none` models a `send_at` value on
which `datetime.fromisoformat` raises (unparsable or missing);
`sendAt = some t` a value parsing to instant `t`. `kind` is the `type`
string field. -/
structure OutboxEntry where
  kind : String
  fromChatId : Int
  messageId : Int
  sendAt : Option Time
  status : OStatus
  originAdmin : Int
deriving DecidableEq, Repr

/-- The under-lock promotion pass of one `outbox_loop` cycle
(bot.py:751-764): every `pending` entry has its `send_at` parsed
(`datetime.fromisoformat` — which raises on an unparsable value, aborting
the whole cycle before anything is saved, hence the `Option` result) and
is flipped to `sending` when due (`send_at <= now`). Non-`pending`
entries are not touched and their `send_at` is never parsed. -/
def promoteEntries (now : Time) : List OutboxEntry → Option (List OutboxEntry)
  | [] => some []
  | e :: rest =>
    if e.status = OStatus.pending then
      match e.sendAt with
      | none => none
      | some t =>
        let e2 := if t ≤ now then { e with status := OStatus.sending } else e
        (promoteEntries now rest).map (fun l => e2 :: l)
    else
      (promoteEntries now rest).map (fun l => e :: l)

/-- The effect of the promotion pass on a single entry, when no entry of
the batch made `fromisoformat` raise. -/
def promoteOne (now : Time) (e : OutboxEntry) : OutboxEntry :=
  if e.status = OStatus.pending then
    match e.sendAt with
    | some t => if t ≤ now then { e with status := OStatus.sending } else e
    | none => e
  else e

/-- The dispatch pass of one `outbox_loop` cycle for the entry at position
`i` (bot.py:766-806): entries whose status is not `sending` are skipped;
a `copy` entry is delegated to `broadcast_copy` and becomes `sent`, or
`error` when that call raises; a `file` entry is sent directly and
becomes `sent`, or `error` when the surrounding code raises; any other
`kind` becomes `unknown_type`. `raises i = true` is the oracle for
"the underlying call raised an exception" (e.g. storage I/O inside
`broadcast_copy` / `send_document`). -/
def dispatchEntry (raises : Nat → Bool) (i : Nat) (e : OutboxEntry) :
    OutboxEntry :=
  if e.status ≠ OStatus.sending then e
  else if e.kind = "copy" then
    if raises i then { e with status := OStatus.error }
    else { e with status := OStatus.sent }
  else if e.kind = "file" then
    if raises i then { e with status := OStatus.error }
    else { e with status := OStatus.sent }
  else { e with status := OStatus.unknown_type }

/-- The dispatch pass over the whole in-memory outbox list, `i` being the
position of the head of the remaining list. -/
def dispatchAll (raises : Nat → Bool) : Nat → List OutboxEntry → List OutboxEntry
  | _, [] => []
  | i, e :: rest => dispatchEntry raises i e :: dispatchAll raises (i + 1) rest

/-- One full cycle of `outbox_loop` (bot.py:749-812), from persisted
outbox to persisted outbox: promotion under the lock, dispatch outside
the lock, final save of the whole list. When `fromisoformat` raises
during promotion, the outer `except` catches it before any save, so the
persisted outbox is unchanged for that cycle. -/
def outbox_cycle (raises : Nat → Bool) (now : Time)
    (outbox : List OutboxEntry) : List OutboxEntry :=
  match promoteEntries now outbox with
  | none => outbox
  | some promoted => dispatchAll raises 0 promoted

/-- The entry dict built by `handle_schedule` (bot.py:698-705): kind
`copy`, a parsed-back `send_at` instant, status `pending`. -/
def mkScheduleEntry (fromChatId messageId : Int) (sendAt : Time)
    (originAdmin : Int) : OutboxEntry :=
  { kind := "copy", fromChatId := fromChatId, messageId := messageId,
    sendAt := some sendAt, status := OStatus.pending,
    originAdmin := originAdmin }

/-- The outbox mutation performed by `handle_schedule` (bot.py:696-707):
load, append one `pending` entry, save. Existing entries are not
touched. -/
def handle_schedule (fromChatId messageId : Int) (sendAt : Time)
    (originAdmin : Int) (outbox : List OutboxEntry) : List OutboxEntry :=
  outbox ++ [mkScheduleEntry fromChatId messageId sendAt originAdmin]

/-- The operations that mutate the persisted outbox: a schedule request,
or one sweep cycle. -/
inductive OutboxOp
  | schedule (fromChatId messageId : Int) (sendAt : Time) (originAdmin : Int)
  | sweep (raises : Nat → Bool) (now : Time)

/-- Apply one outbox operation to the persisted outbox. -/
def applyOp : OutboxOp → List OutboxEntry → List OutboxEntry
  | OutboxOp.schedule f m t a, ob => handle_schedule f m t a ob
  | OutboxOp.sweep raises now, ob => outbox_cycle raises now ob

/-- Apply a sequence of outbox operations, oldest first. -/
def applyOps : List OutboxOp → List OutboxEntry → List OutboxEntry
  | [], ob => ob
  | op :: rest, ob => applyOps rest (applyOp op ob)

/-- Position of a status in the `pending → sending → terminal` chain. -/
def statusRank : OStatus → Nat
  | OStatus.pending => 0
  | OStatus.sending => 1
  | _ => 2

/-- `Reach a b`: status `b` is reachable from status `a` along the
`pending → sending → {sent, error, unknown_type}` state machine, i.e.
the statuses are equal or the rank strictly increases. Two distinct
terminal statuses never reach each other, and nothing reaches back to
`pending` or `sending`. -/
def Reach (a b : OStatus) : Prop :=
  a = b ∨ statusRank a < statusRank b

theorem Reach_refl (a : OStatus) : Reach a a := Or.inl rfl

theorem Reach_trans (a b c : OStatus) (h1 : Reach a b) (h2 : Reach b c) :
    Reach a c := by
  rcases h1 with rfl | h1
  · exact h2
  · rcases h2 with rfl | h2
    · exact Or.inr h1
    · exact Or.inr (lt_trans h1 h2)

/-- When the promotion pass completes (no parse raised), it is the
pointwise `promoteOne` and preserves length and positions. -/
theorem promoteEntries_some_spec (now : Time) :
    ∀ ob l, promoteEntries now ob = some l →
      l.length = ob.length ∧
      ∀ i d, i < ob.length → l.getD i d = promoteOne now (ob.getD i d) := by
  intro ob
  induction ob with
  | nil =>
    intro l h
    simp only [promoteEntries, Option.some.injEq] at h
    subst h
    exact ⟨rfl, fun i d hi => absurd hi (by simp)⟩
  | cons e rest ih =>
    intro l h
    by_cases hp : e.status = OStatus.pending
    · cases hs : e.sendAt with
      | none => simp [promoteEntries, hp, hs] at h
      | some t =>
        simp only [promoteEntries, hp, if_true, hs, Option.map_eq_some'] at h
        obtain ⟨lr, hlr, rfl⟩ := h
        obtain ⟨hlen, hget⟩ := ih lr hlr
        refine ⟨by simp [hlen], ?_⟩
        intro i d hi
        cases i with
        | zero =>
          simp only [List.getD_cons_zero, promoteOne, hp, if_true, hs]
        | succ n =>
          simp only [List.getD_cons_succ]
          exact hget n d (by simpa using hi)
    · simp only [promoteEntries, hp, if_false, Option.map_eq_some'] at h
      obtain ⟨lr, hlr, rfl⟩ := h
      obtain ⟨hlen, hget⟩ := ih lr hlr
      refine ⟨by simp [hlen], ?_⟩
      intro i d hi
      cases i with
      | zero => simp only [List.getD_cons_zero, promoteOne, hp, if_false]
      | succ n =>
        simp only [List.getD_cons_succ]
        exact hget n d (by simpa using hi)

/-- When every pending entry has a parsable `send_at`, the promotion pass
completes without raising. -/
theorem promoteEntries_isSome (now : Time) :
    ∀ ob, (∀ e ∈ ob, e.status = OStatus.pending → e.sendAt ≠ none) →
      ∃ l, promoteEntries now ob = some l := by
  intro ob
  induction ob with
  | nil => intro h; exact ⟨[], rfl⟩
  | cons e rest ih =>
    intro h
    obtain ⟨lr, hlr⟩ := ih (fun x hx => h x (List.mem_cons_of_mem e hx))
    by_cases hp : e.status = OStatus.pending
    · cases hs : e.sendAt with
      | none => exact absurd hs (h e (List.mem_cons_self e rest) hp)
      | some t =>
        exact ⟨(if t ≤ now then { e with status := OStatus.sending } else e) :: lr,
          by simp [promoteEntries, hp, hs, hlr]⟩
    · exact ⟨e :: lr, by simp [promoteEntries, hp, hlr]⟩

theorem dispatchAll_length (raises : Nat → Bool) :
    ∀ k l, (dispatchAll raises k l).length = l.length := by
  intro k l
  induction l generalizing k with
  | nil => rfl
  | cons e rest ih => simp [dispatchAll, ih]

theorem dispatchAll_getD (raises : Nat → Bool) :
    ∀ l k i d, i < l.length →
      (dispatchAll raises k l).getD i d
        = dispatchEntry raises (k + i) (l.getD i d) := by
  intro l
  induction l with
  | nil => intro k i d hi; simp at hi
  | cons e rest ih =>
    intro k i d hi
    cases i with
    | zero => simp [dispatchAll]
    | succ n =>
      simp only [dispatchAll, List.getD_cons_succ]
      rw [ih (k + 1) n d (by simpa using hi)]
      congr 1
      omega

theorem promoteOne_reach (now : Time) (e : OutboxEntry) :
    Reach e.status (promoteOne now e).status := by
  unfold promoteOne
  by_cases hp : e.status = OStatus.pending
  · rw [if_pos hp]
    cases hs : e.sendAt with
    | none => exact Reach_refl _
    | some t =>
      by_cases ht : t ≤ now
      · refine Or.inr ?_
        simp only [ht, if_true]
        rw [hp]
        decide
      · refine Or.inl ?_
        simp [ht]
  · rw [if_neg hp]
    exact Reach_refl _

theorem promoteOne_sending (now : Time) (e : OutboxEntry)
    (hs : e.status = OStatus.sending) : promoteOne now e = e := by
  unfold promoteOne
  rw [if_neg (by rw [hs]; decide)]

theorem dispatchEntry_reach (raises : Nat → Bool) (i : Nat) (e : OutboxEntry) :
    Reach e.status (dispatchEntry raises i e).status := by
  unfold dispatchEntry
  by_cases hs : e.status = OStatus.sending
  · rw [if_neg (not_not_intro hs)]
    split_ifs <;> simp [Reach, hs, statusRank]
  · rw [if_pos hs]
    exact Reach_refl _

theorem dispatchEntry_terminal (raises : Nat → Bool) (i : Nat)
    (e : OutboxEntry) (hs : e.status = OStatus.sending) :
    statusRank (dispatchEntry raises i e).status = 2 := by
  unfold dispatchEntry
  rw [if_neg (not_not_intro hs)]
  split_ifs <;> rfl

/-- No outbox operation shortens the persisted outbox. -/
theorem applyOp_length (op : OutboxOp) (ob : List OutboxEntry) :
    ob.length ≤ (applyOp op ob).length := by
  cases op with
  | schedule f m t a => simp [applyOp, handle_schedule]
  | sweep raises now =>
    simp only [applyOp, outbox_cycle]
    cases hp : promoteEntries now ob with
    | none => exact le_refl _
    | some l =>
      rw [dispatchAll_length, (promoteEntries_some_spec now ob l hp).1]

/-- One outbox operation moves each existing entry's status only along
the `pending → sending → terminal` chain. -/
theorem applyOp_reach (op : OutboxOp) (ob : List OutboxEntry) (i : Nat)
    (d : OutboxEntry) (hi : i < ob.length) :
    Reach ((ob.getD i d).status) (((applyOp op ob).getD i d).status) := by
  cases op with
  | schedule f m t a =>
    simp only [applyOp, handle_schedule]
    rw [List.getD_append _ _ _ _ hi]
    exact Reach_refl _
  | sweep raises now =>
    simp only [applyOp, outbox_cycle]
    cases hp : promoteEntries now ob with
    | none => exact Reach_refl _
    | some l =>
      obtain ⟨hlen, hget⟩ := promoteEntries_some_spec now ob l hp
      rw [dispatchAll_getD raises l 0 i d (by omega), hget i d hi]
      exact Reach_trans _ _ _ (promoteOne_reach now _)
        (dispatchEntry_reach raises (0 + i) _)

/-- C9 (confirmed): across any sequence of schedule requests and sweep
cycles, each persisted OutboxEntry's status only moves forward along
`pending → sending → exactly one of {sent, error, unknown_type}`: it is
never moved back to `pending` or `sending` once it has left that state,
and a terminal status is never exchanged for another. -/
theorem C9_theorem (ops : List OutboxOp) (ob : List OutboxEntry) (i : Nat)
    (d : OutboxEntry) (hi : i < ob.length) :
    Reach ((ob.getD i d).status) (((applyOps ops ob).getD i d).status) := by
  induction ops generalizing ob with
  | nil => exact Reach_refl _
  | cons op rest ih =>
    exact Reach_trans _ _ _ (applyOp_reach op ob i d hi)
      (ih (applyOp op ob) (lt_of_lt_of_le hi (applyOp_length op ob)))

/-- Witness for C9 at concrete inputs: one sweep over a due pending entry
moves its status forward along the chain. -/
theorem C9_witness :
    Reach ((([⟨"copy", 1, 2, some 0, OStatus.pending, 3⟩] :
        List OutboxEntry).getD 0 (mkScheduleEntry 0 0 0 0)).status)
      (((applyOps [OutboxOp.sweep (fun _ => false) 10]
          [⟨"copy", 1, 2, some 0, OStatus.pending, 3⟩]).getD 0
        (mkScheduleEntry 0 0 0 0)).status) :=
  C9_theorem [OutboxOp.sweep (fun _ => false) 10]
    [⟨"copy", 1, 2, some 0, OStatus.pending, 3⟩] 0 (mkScheduleEntry 0 0 0 0)
    (by decide)

/-- C5 (corrected): the dispatch pass of a sweep cycle handles EVERY
entry whose status is `sending` in the snapshot it loaded — whether
promoted this cycle or persisted as `sending` by a previous (crashed)
process. Provided no pending entry aborts the promotion pass (all
parsable `send_at`), every such entry is dispatched and ends the cycle
in a terminal status: stale `sending` entries ARE resumed. -/
theorem C5_theorem (raises : Nat → Bool) (now : Time) (ob : List OutboxEntry)
    (i : Nat) (d : OutboxEntry)
    (hsafe : ∀ e ∈ ob, e.status = OStatus.pending → e.sendAt ≠ none)
    (hi : i < ob.length) (hs : (ob.getD i d).status = OStatus.sending) :
    statusRank ((outbox_cycle raises now ob).getD i d).status = 2 := by
  obtain ⟨l, hl⟩ := promoteEntries_isSome now ob hsafe
  obtain ⟨hlen, hget⟩ := promoteEntries_some_spec now ob l hl
  simp only [outbox_cycle, hl]
  rw [dispatchAll_getD raises l 0 i d (by omega), hget i d hi,
    promoteOne_sending now _ hs]
  exact dispatchEntry_terminal raises (0 + i) _ hs

/-- Witness for C5 at concrete inputs: a lone stale `sending` entry is
dispatched to a terminal status by the next sweep cycle. -/
theorem C5_witness :
    statusRank ((outbox_cycle (fun _ => true) 20
        [⟨"file", 4, 4, some 1, OStatus.sending, 2⟩]).getD 0
        (mkScheduleEntry 0 0 0 0)).status = 2 :=
  C5_theorem (fun _ => true) 20 [⟨"file", 4, 4, some 1, OStatus.sending, 2⟩]
    0 (mkScheduleEntry 0 0 0 0) (by decide) (by decide) (by decide)

/-- Counterexample to C5 as stated: an entry persisted as `sending` at
process start (nothing was promoted this cycle — no entry is `pending`)
IS dispatched by the very next sweep cycle: its status becomes `sent`. -/
theorem C5_counterexample :
    outbox_cycle (fun _ => false) 10
        [⟨"copy", 5, 7, some 0, OStatus.sending, 9⟩]
      = [⟨"copy", 5, 7, some 0, OStatus.sent, 9⟩] := by
  decide

/-- C7 evaluated at its failing input: an outbox holding a pending entry
with an unparsable `send_at` (`fromisoformat` raises) followed by a due,
well-formed pending `copy` entry. The raise aborts the promotion pass
before anything is saved, so EVERY sweep cycle — for every `now` and
every dispatch outcome — leaves the whole outbox unchanged: the due
entry is never promoted or dispatched while the malformed entry sits in
the outbox, contradicting the claim that a malformed entry never
prevents other due entries from being processed. -/
theorem C7_theorem (raises : Nat → Bool) (now : Time) :
    outbox_cycle raises now
        [⟨"copy", 1, 2, none, OStatus.pending, 3⟩,
          ⟨"copy", 1, 2, some 0, OStatus.pending, 3⟩]
      = [⟨"copy", 1, 2, none, OStatus.pending, 3⟩,
          ⟨"copy", 1, 2, some 0, OStatus.pending, 3⟩] := rfl

end SignalBot
